import Mathlib

/-!
Verification of the torrent-identity resolution core (`src/torrent.ts`).

The development shallowly embeds the functions of `src/torrent.ts` that the
claims concern: the remote fetch classifier (`parseTorrentFromURL`), the fuzzy
name resolver (`getTorrentByFuzzyName` with its helpers `tokenizeName`,
`createComparableTorrent`, `removeExtensionsFromName`), and the criteria
locator (`getTorrentByCriteria`).

Modelling conventions:
* JavaScript strings are `String`; `.length`, `.toLowerCase()`, `.sort()` and
  friends are modelled over the code-point range where JS (UTF-16) and Lean
  (code points) agree, i.e. the Basic Multilingual Plane, which covers release
  names.
* JavaScript numbers in the fuzzy-matching arithmetic are modelled as exact
  fractions (`JsNum`, an unnormalised `Int`/`Nat` pair, so that every
  operation is kernel-computable); their meaning is given by `JsNum.toRat`.
  For the comparisons the code performs (integer edit distances against
  `Math.max(T, Math.min(0.1*L, 8))` with `L ≤` a few hundred) the IEEE-754
  double results order identically to the exact rationals, so exact fractions
  are a faithful model of the decision logic.
* A thrown JavaScript exception is `Except.error`; a function that cannot
  throw returns a plain value.
* The torrent metadata codec (`Metafile`, `src/parseTorrent.ts`) is external
  to the unit; it is abstracted as a type parameter `M` together with a
  decode function where needed.
-/

namespace CrossSeed

/-! ## JavaScript string primitives -/

/-- The separator class of the tokenizing regex `/[.\s-]+/` in
`tokenizeName`: a dot, whitespace, or a hyphen.  (`\s` is modelled over the
ASCII whitespace characters that occur in release names.) -/
def isSep (c : Char) : Bool :=
  c == '.' || c == ' ' || c == '\t' || c == '\n' || c == '\r' || c == '-'

/-- List form of `String.prototype.startsWith`. -/
def listStartsWith : List Char → List Char → Bool
  | _, [] => true
  | [], _ :: _ => false
  | c :: cs, d :: ds => c == d && listStartsWith cs ds

/-- `s.startsWith(pre)` (kernel-computable; core `String.startsWith` does not
reduce). -/
def strStartsWith (s pre : String) : Bool :=
  listStartsWith s.toList pre.toList

/-- List form of `String.prototype.includes`. -/
def containsSubList : List Char → List Char → Bool
  | [], needle => listStartsWith [] needle
  | c :: cs, needle => listStartsWith (c :: cs) needle || containsSubList cs needle

/-- `s.includes(sub)`. -/
def containsSub (s sub : String) : Bool :=
  containsSubList s.toList sub.toList

/-- `s.endsWith(suffix)`, as used by `removeExtensionsFromName`. -/
def strEndsWith (s suf : String) : Bool :=
  listStartsWith s.toList.reverse suf.toList.reverse

/-- JS `String.prototype.toLowerCase`, modelled over ASCII via `Char.toLower`. -/
def jsToLower (s : String) : String :=
  String.mk (s.toList.map Char.toLower)

/-! ### `split(/[.\s-]+/)`

JS `split` on a regex cuts the string at every (maximal) regex match and keeps
the pieces, including an empty piece at either end when the string starts or
ends with a match.  We first cut at every single separator character
(`splitAtSeps`), then merge each run of separators into one cut by dropping
the empty pieces a run leaves *between* its characters
(`dropEmptiesKeepLast`); boundary empties survive, matching JS. -/

/-- Cut a character list at every separator character.  Always nonempty. -/
def splitAtSeps : List Char → List (List Char)
  | [] => [[]]
  | c :: cs =>
    match splitAtSeps cs with
    | [] => if isSep c then [[], []] else [[c]]
    | t :: ts => if isSep c then [] :: t :: ts else (c :: t) :: ts

/-- Drop empty pieces, except that the final piece is always kept (it is the
piece after the last separator, which JS keeps even when empty). -/
def dropEmptiesKeepLast : List (List Char) → List (List Char)
  | [] => []
  | [t] => [t]
  | t :: t' :: ts =>
    if t.isEmpty then dropEmptiesKeepLast (t' :: ts)
    else t :: dropEmptiesKeepLast (t' :: ts)

/-- `tname.split(/[.\s-]+/)` over character lists. -/
def jsSplitChars (l : List Char) : List (List Char) :=
  match splitAtSeps l with
  | [] => []
  | t :: ts => t :: dropEmptiesKeepLast ts

/-! ### `Array.prototype.sort()`

The default JS sort comparator orders strings lexicographically by code unit;
`lexLe` is that order (on code points, identical on the BMP).  JS may use any
comparison sort; since the order is total and antisymmetric the sorted result
is unique, so insertion sort is a faithful model. -/

/-- Lexicographic order on character lists, as a Boolean predicate. -/
def lexLe : List Char → List Char → Bool
  | [], _ => true
  | _ :: _, [] => false
  | a :: as, b :: bs => if a < b then true else if b < a then false else lexLe as bs

/-- The JS default string comparison, `a ≤ b`. -/
def strLeB (a b : String) : Bool :=
  lexLe a.toList b.toList

instance decRelStrLeB : DecidableRel (fun a b : String => strLeB a b = true) :=
  fun a b => inferInstanceAs (Decidable (strLeB a b = true))

/-- `arr.sort()` for an array of strings. -/
def sortStrings (l : List String) : List String :=
  List.insertionSort (fun a b => strLeB a b = true) l

/-- `arr.join("")`. -/
def concatAll : List String → String
  | [] => ""
  | s :: ss => s ++ concatAll ss

/-! ## Canonicalization (`tokenizeName`, `createComparableTorrent`) -/

/-- The token list of a name after splitting and lower-casing, before
sorting: `tname.split(/[.\s-]+/).map((x) => x.toLowerCase())`. -/
def lowerSplit (tname : String) : List String :=
  (jsSplitChars tname.toList).map (fun t => String.mk (t.map Char.toLower))

/-- `tokenizeName` from `src/torrent.ts`:
`tname.split(/[.\s-]+/).map((x) => x.toLowerCase()).sort()`. -/
def tokenizeName (tname : String) : List String :=
  sortStrings (lowerSplit tname)

/-- `createComparableTorrent` from `src/torrent.ts`:
`tokenizeName(x).join("")`. -/
def createComparableTorrent (x : String) : String :=
  concatAll (tokenizeName x)

/-! ## The `fastest-levenshtein` library (`distance`, `closest`)

External npm dependency of `src/torrent.ts`.  `distance` is the Levenshtein
edit distance, computed here by the standard one-row dynamic programme;
`closest(str, arr)` scans `arr` keeping the first element of strictly
minimal distance and returns `arr[min_index]` — which is `undefined`
(here: `none`) when `arr` is empty, because `min_index` stays `0`. -/

/-- One step of the DP row update.  Arguments: the remaining characters of
`a`, the diagonal predecessor `prev[j-1]`, the rest of the previous row
`[prev[j], …]`, and the entry `new[j-1]` just computed to the left. -/
def levRowGo (c : Char) : List Char → Nat → List Nat → Nat → List Nat
  | [], _, _, _ => []
  | a :: as, diag, prev, left =>
    let pj := prev.headD 0
    let cur := min (min (pj + 1) (left + 1)) (diag + (if a == c then 0 else 1))
    cur :: levRowGo c as pj prev.tail cur

/-- The DP row for one further character `c` of the second string. -/
def levNextRow (c : Char) (a : List Char) (prev : List Nat) : List Nat :=
  let p0 := prev.headD 0
  (p0 + 1) :: levRowGo c a p0 prev.tail (p0 + 1)

/-- Levenshtein distance on character lists. -/
def levDistChars (a b : List Char) : Nat :=
  (b.foldl (fun row c => levNextRow c a row) (List.range (a.length + 1))).getLastD 0

/-- `distance(a, b)` of `fastest-levenshtein`. -/
def distance (a b : String) : Nat :=
  levDistChars a.toList b.toList

/-- The scan of `closest`: keep the first element of strictly smaller
distance than the best so far. -/
def closestGo (str : String) (best : String) : List String → String
  | [] => best
  | s :: ss => closestGo str (if distance str s < distance str best then s else best) ss

/-- `closest(str, arr)` of `fastest-levenshtein`.  On an empty array the JS
function returns `arr[0]`, i.e. `undefined`, modelled as `none`. -/
def closest (str : String) : List String → Option String
  | [] => none
  | a :: rest => some (closestGo str a rest)

/-! ## Fuzzy name resolver (`getTorrentByFuzzyName`) -/

/-- A thrown JavaScript exception (the claims only need to distinguish
"some exception was raised" from a returned value). -/
inductive JsError : Type where
  /-- a `TypeError` from dereferencing `null`/`undefined` -/
  | typeError : JsError
  /-- a `throw new Error(...)` -/
  | genericError : JsError
deriving DecidableEq

/-- Modelled from the spec: the search regexes `EP_REGEX`, `SEASON_REGEX`,
`MOVIE_REGEX` and `GROUP_REGEX` live in `src/constants.js`, which is not part
of the sources under verification.  The spec describes them as matchers for an
episode marker (e.g. `S01E02`), a season-only marker, a movie/title-year
marker, and a release-group tag.  Each field models `name.match(REGEX)`,
returning the full match `[0]` when the pattern occurs in the name and `none`
otherwise; `REGEX.test(name)` is `Option.isSome` of the same call. -/
structure Patterns : Type where
  epMatch : String → Option String
  seasonMatch : String → Option String
  movieMatch : String → Option String
  groupMatch : String → Option String

/-- The search-term extraction cascade of `getTorrentByFuzzyName`
(`src/torrent.ts` lines 233–243): a nested conditional on `EP_REGEX.test`,
`SEASON_REGEX.test` and `GROUP_REGEX.test`, reading `name.match(...)[0]` of
the matched patterns.  In the branch where none of the episode and season
patterns test positive, the code reads `name.match(MOVIE_REGEX)[0]`
unconditionally; when `MOVIE_REGEX` does not match, `match` returns `null`
and the index access throws a `TypeError`, modelled as `none`. -/
def computeSearchTerm (P : Patterns) (name : String) : Option String :=
  if (P.epMatch name).isSome then
    if (P.groupMatch name).isSome then
      match P.epMatch name, P.groupMatch name with
      | some e, some g => some (e ++ "%" ++ g)
      | _, _ => none
    else P.epMatch name
  else if (P.seasonMatch name).isSome then
    if (P.groupMatch name).isSome then
      match P.seasonMatch name, P.groupMatch name with
      | some s, some g => some (s ++ "%" ++ g)
      | _, _ => none
    else P.seasonMatch name
  else if (P.groupMatch name).isSome then
    match P.movieMatch name, P.groupMatch name with
    | some m, some g => some (m ++ "%" ++ g)
    | _, _ => none
  else P.movieMatch name

/-- A row of the `torrent` table as selected by the fuzzy query:
`db("torrent").select("name", "file_path")`. -/
structure TorrentRecord : Type where
  name : String
  file_path : String
deriving DecidableEq

/-- `removeExtensionsFromName` from `src/torrent.ts` (lines 217–227).  The
source iterates `extensionsToRemove.forEach((extension) => { if
(name.endsWith(extension)) { return name.endsWith(extension) ? name.slice(0,
-1 * extension.length) : name; } });` — but `return` inside a `forEach`
callback only ends the callback, its value is discarded, and the immutable
binding `name` is never reassigned, so the traversal cannot affect the
result.  The discarded callback values are kept here to mirror the source
(`slice(0, -n)` keeps all but the last `n` characters for the nonempty
extensions in play). -/
def removeExtensionsFromName (extensionsToRemove : List String) (name : String) : String :=
  let _discarded : List (Option String) :=
    extensionsToRemove.map (fun extension =>
      if strEndsWith name extension then
        some (if strEndsWith name extension then
                String.mk (name.toList.take (name.toList.length - extension.length))
              else name)
      else none)
  name

/-- The `searchMap` accumulation: a JS object used as a string-keyed map,
`searchMap[createComparableTorrent(removeExtensionsFromName(x.name))] = x`
for each retrieved row.  Assigning an existing key overwrites its value but
keeps its original position; otherwise the key is appended.  (JS property
order would float array-index-like keys to the front; the canonical-name
keys in play are not array indices, so insertion order is the faithful
model.) -/
def upsert (m : List (String × TorrentRecord)) (k : String) (v : TorrentRecord) :
    List (String × TorrentRecord) :=
  if m.any (fun p => p.1 == k) then
    m.map (fun p => if p.1 == k then (k, v) else p)
  else m ++ [(k, v)]

/-- Build `searchMap` from the rows returned by the pattern query. -/
def buildSearchMap (exts : List String) (records : List TorrentRecord) :
    List (String × TorrentRecord) :=
  records.foldl
    (fun m x => upsert m (createComparableTorrent (removeExtensionsFromName exts x.name)) x) []

/-! ### JavaScript number arithmetic

The acceptance arithmetic of the resolver (`0.1 * length`, `Math.min`,
`Math.max`, subtraction and `>=`) is modelled with exact fractions kept as
unnormalised `Int`/`Nat` pairs so that every operation reduces in the
kernel; `JsNum.toRat` gives the numeric meaning.  Constructed values always
have a positive denominator. -/

structure JsNum : Type where
  num : Int
  den : Nat
deriving DecidableEq

/-- `a <= b` on numbers, by cross-multiplication. -/
def jsnLe (a b : JsNum) : Bool :=
  a.num * (b.den : Int) ≤ b.num * (a.den : Int)

/-- `Math.max(a, b)`. -/
def jsnMax (a b : JsNum) : JsNum := if jsnLe a b then b else a

/-- `Math.min(a, b)`. -/
def jsnMin (a b : JsNum) : JsNum := if jsnLe a b then a else b

/-- Multiplication. -/
def jsnMul (a b : JsNum) : JsNum := ⟨a.num * b.num, a.den * b.den⟩

/-- Subtraction. -/
def jsnSub (a b : JsNum) : JsNum :=
  ⟨a.num * (b.den : Int) - b.num * (a.den : Int), a.den * b.den⟩

/-- Division, for the diagnostic `dissimilarityPct` only (its value feeds the
verbose log and never the control flow; JS division never throws — `d/0` is
`Infinity` or `NaN`).  Denominators in play are nonnegative numerators. -/
def jsnDiv (a b : JsNum) : JsNum := ⟨a.num * (b.den : Int), a.den * b.num.natAbs⟩

/-- An integer quantity as a number. -/
def jsnOfNat (n : Nat) : JsNum := ⟨(n : Int), 1⟩

/-- The numeric value of a `JsNum`. -/
def JsNum.toRat (a : JsNum) : ℚ := (a.num : ℚ) / (a.den : ℚ)

/-- `getTorrentByFuzzyName` from `src/torrent.ts` (lines 229–276).

Parameters standing for the externals: `P` the regexes of
`src/constants.js`; `exts` the `VIDEO_EXTENSIONS ++ DATA_EXTENSIONS` list of
the same file; `levenshtein` the configured threshold
`(await getFileConfig()).levenshtein`; `query` the Index-Store pattern query
`db("torrent").select("name","file_path").where("name","LIKE",searchTerm)`;
`parseFile` the codec call `parseTorrentFromFilename` on a stored file path.

`Except.error` marks a thrown exception: a failed search-term extraction
(`null[0]`), or `closest` returning `undefined` on an empty candidate set,
which the subsequent `distance(searchTarget, undefined)` dereferences.  The
`searchMap[closestMatch]` lookup in the logging branch is likewise guarded.
`.ok none` is the `null` (NoMatch) return; `.ok (some m)` a resolved
metafile. -/
def getTorrentByFuzzyName {M : Type} (P : Patterns) (exts : List String)
    (levenshtein : JsNum) (query : String → List TorrentRecord)
    (parseFile : String → M) (name : String) : Except JsError (Option M) :=
  let searchTarget := createComparableTorrent name
  match computeSearchTerm P name with
  | none => .error .typeError
  | some searchTerm =>
    let allTorrentNames := query searchTerm
    let searchMap := buildSearchMap exts allTorrentNames
    match closest searchTarget (searchMap.map Prod.fst) with
    | none => .error .typeError
    | some closestMatch =>
      let calcDistanceFrom := distance searchTarget closestMatch
      let _dissimilarityPct :=
        jsnDiv (jsnOfNat calcDistanceFrom) (jsnOfNat searchTarget.length)
      let _similarityPct :=
        jsnMul (jsnOfNat 100) (jsnSub (jsnOfNat 1) _dissimilarityPct)
      let distanceMax :=
        jsnMax levenshtein (jsnMin (jsnMul ⟨1, 10⟩ (jsnOfNat searchTarget.length)) (jsnOfNat 8))
      if jsnLe (jsnSub (jsnOfNat calcDistanceFrom) (jsnOfNat 2)) distanceMax then
        match List.lookup closestMatch searchMap with
        | none => .error .typeError
        | some r0 =>
          if jsnLe (jsnOfNat calcDistanceFrom) distanceMax then
            .ok (some (parseFile r0.file_path))
          else .ok none
      else .ok none

/-! ## Criteria locator (`getTorrentByCriteria`) -/

/-- `TorrentLocator` from `src/torrent.ts`: three optional fields. -/
structure TorrentLocator : Type where
  infoHash : Option String := none
  name : Option String := none
  path : Option String := none
deriving DecidableEq

/-- A full row of the `torrent` table (`file_path`, `info_hash`, `name`, as
inserted by `indexNewTorrents`). -/
structure TorrentDbRow : Type where
  info_hash : String
  name : String
  file_path : String
deriving DecidableEq

/-- JS truthiness of an optional string field: present and not `""`. -/
def truthyStr : Option String → Bool
  | some s => !(s == "")
  | none => false

/-- The `where` clause built by `getTorrentByCriteria`: a conjunction that
adds `{ info_hash: criteria.infoHash }` when `criteria.infoHash` is truthy
and `{ name: criteria.name }` when `criteria.name` is truthy.  The `path`
field of the locator is never consulted. -/
def locatorWhere (criteria : TorrentLocator) (row : TorrentDbRow) : Bool :=
  (if truthyStr criteria.infoHash then row.info_hash == criteria.infoHash.getD "" else true) &&
  (if truthyStr criteria.name then row.name == criteria.name.getD "" else true)

/-- Modelled from the spec: the claim's reading of the lookup predicate —
"the conjunction (AND) of all populated TorrentLocator fields", so that a
populated `path` is compared against the record's stored file path.  This
definition follows the spec's words and exists to be compared with
`locatorWhere`, the predicate the code actually builds. -/
def locatorWhereSpec (criteria : TorrentLocator) (row : TorrentDbRow) : Bool :=
  (match criteria.infoHash with | some h => row.info_hash == h | none => true) &&
  (match criteria.name with | some n => row.name == n | none => true) &&
  (match criteria.path with | some p => row.file_path == p | none => true)

/-- `getTorrentByCriteria` from `src/torrent.ts` (lines 278–301).  `store` is
the `torrent` table in row order; `.first()` is the first row satisfying the
`where` clause.  When no row matches, the code throws
`new Error("could not find a torrent with the criteria …")`, modelled as
`.error .genericError`; otherwise it decodes the stored file. -/
def getTorrentByCriteria {M : Type} (parseFile : String → M)
    (store : List TorrentDbRow) (criteria : TorrentLocator) : Except JsError M :=
  match store.find? (locatorWhere criteria) with
  | none => .error .genericError
  | some findResult => .ok (parseFile findResult.file_path)

/-! ## Remote fetch classifier (`parseTorrentFromURL`) -/

/-- Modelled from the spec: the result type of `src/Result.ts` (not among the
sources under verification) — "a result type holding either a `Metafile` or
one `SnatchErrorKind`.  Exactly one of the two is populated."  `resultOf`
and `resultOfErr` are its constructors. -/
inductive Result (α ε : Type) : Type where
  | Ok (value : α)
  | Err (error : ε)
deriving DecidableEq

/-- `resultOf` of `src/Result.ts`. -/
def resultOf {α ε : Type} (value : α) : Result α ε := .Ok value

/-- `resultOfErr` of `src/Result.ts`. -/
def resultOfErr {α ε : Type} (error : ε) : Result α ε := .Err error

/-- `SnatchError` from `src/torrent.ts`. -/
inductive SnatchError : Type where
  | ABORTED
  | RATE_LIMITED
  | MAGNET_LINK
  | INVALID_CONTENTS
  | UNKNOWN_ERROR
deriving DecidableEq

/-- A settled HTTP response as `parseTorrentFromURL` consumes it: the status
code, the `location` and `Content-Type` headers (header lookup in fetch is
case-insensitive, so one field per header), the textual body
(`response.text()`, also of `response.clone()`), and the raw body bytes
(`response.arrayBuffer()`). -/
structure Response : Type where
  status : Nat
  location : Option String := none
  contentType : Option String := none
  bodyText : String := ""
  bodyBytes : List Nat := []
deriving DecidableEq

/-- `response.ok` of fetch: status in the inclusive range 200–299. -/
def Response.ok (r : Response) : Bool :=
  200 ≤ r.status && r.status ≤ 299

/-- The first guard of the classifier:
`response.status.toString().startsWith("3") &&
 response.headers.get("location")?.startsWith("magnet:")`
(the optional chain makes a missing `location` header falsy). -/
def magnetRedirect (r : Response) : Bool :=
  strStartsWith (Nat.repr r.status) "3" &&
    (match r.location with
     | some loc => strStartsWith loc "magnet:"
     | none => false)

/-- The response-classification chain of `parseTorrentFromURL`
(`src/torrent.ts` lines 73–113), in source order: magnet redirect, status
429, `!response.ok`, the `application/rss+xml` content type (body inspected
for the literal `"429"`), and finally `Metafile.decode` of the body bytes
(`decode` failure is the caught exception path). -/
def classifyResponse {M : Type} (decode : List Nat → Option M) (r : Response) :
    Result M SnatchError :=
  if magnetRedirect r then resultOfErr SnatchError.MAGNET_LINK
  else if r.status == 429 then resultOfErr SnatchError.RATE_LIMITED
  else if !r.ok then resultOfErr SnatchError.UNKNOWN_ERROR
  else if r.contentType == some "application/rss+xml" then
    if containsSub r.bodyText "429" then resultOfErr SnatchError.RATE_LIMITED
    else resultOfErr SnatchError.INVALID_CONTENTS
  else
    match decode r.bodyBytes with
    | some m => resultOf m
    | none => resultOfErr SnatchError.INVALID_CONTENTS

/-- How the `fetch` call settles: a response, or a rejection carrying the
error's `name` (the cancellation timer's abort surfaces as `"AbortError"`;
any transport failure carries another name). -/
inductive FetchResult : Type where
  | success (r : Response)
  | failure (errName : String)
deriving DecidableEq

/-- `parseTorrentFromURL` from `src/torrent.ts` (lines 46–114), given how the
request settled.  The `try/catch` around `fetch` turns an `"AbortError"`
rejection into `ABORTED` and any other rejection into `UNKNOWN_ERROR`; a
response goes through the classification chain.  This model takes the
response's body as settled data, which is the domain of the classification
claims; the settlement modes in which a body read itself rejects — where
the source *can* throw, because the `text()` awaits of the non-2xx and RSS
branches sit outside any `try` — are modelled by `parseTorrentFromURLFull`
below. -/
def parseTorrentFromURL {M : Type} (decode : List Nat → Option M) :
    FetchResult → Result M SnatchError
  | .failure errName =>
      if errName == "AbortError" then resultOfErr SnatchError.ABORTED
      else resultOfErr SnatchError.UNKNOWN_ERROR
  | .success r => classifyResponse decode r

/-- An operation on the cancellation timer. -/
inductive TimerOp : Type where
  /-- `setTimeout(...)`; the flag records an immediate `.unref()` -/
  | set (unrefd : Bool)
  /-- `clearTimeout(...)` -/
  | clear
deriving DecidableEq

/-- The timer operations `parseTorrentFromURL` performs.  The source guards a
single `setTimeout(() => void abortController.abort(), snatchTimeout).unref()`
with `typeof snatchTimeout === "number"`; no path contains a `clearTimeout`,
so the operation list does not depend on how the request settles. -/
def snatchTimerOps (snatchTimeout : Option Nat) : List TimerOp :=
  match snatchTimeout with
  | some _ => [TimerOp.set true]
  | none => []

/-- A full run of `parseTorrentFromURL`: the returned value together with the
timer operations performed along the way. -/
def parseTorrentFromURLRun {M : Type} (decode : List Nat → Option M)
    (snatchTimeout : Option Nat) (fr : FetchResult) :
    Result M SnatchError × List TimerOp :=
  (parseTorrentFromURL decode fr, snatchTimerOps snatchTimeout)

/-! ### The full settlement model: fallible body reads

`Response` above carries the body as settled data.  The source, however, can
still throw *after* the response settles: the body reads
`await response.text()` (`src/torrent.ts` line 85, the non-2xx diagnostic
branch) and `await response.clone().text()` (line 88, the RSS branch) sit
outside both `try`/`catch` blocks — the first `try` covers only the `fetch`
await, the second only the decode — so a rejection there (a stream failure
mid-body, or the still-armed cancellation timer firing during the read)
propagates to the caller as a thrown exception.  A rejection of
`await response.arrayBuffer()` (line 103) is inside the second `try` and is
caught, returning `INVALID_CONTENTS` — even when the rejection is the
timer's `AbortError`.

`ResponseFull` models the reads explicitly: `textResult` is the outcome of
reading the textual body (the clone at line 88 reads the same underlying
stream, so one field serves both sites), `bytesResult` the outcome of
`arrayBuffer()`; an `Except.error` carries the rejection's error name. -/

structure ResponseFull : Type where
  status : Nat
  location : Option String := none
  contentType : Option String := none
  textResult : Except String String := .ok ""
  bytesResult : Except String (List Nat) := .ok []

/-- `response.ok` for the full model. -/
def ResponseFull.ok (r : ResponseFull) : Bool :=
  200 ≤ r.status && r.status ≤ 299

/-- The magnet-redirect guard for the full model. -/
def magnetRedirectFull (r : ResponseFull) : Bool :=
  strStartsWith (Nat.repr r.status) "3" &&
    (match r.location with
     | some loc => strStartsWith loc "magnet:"
     | none => false)

/-- How the `fetch` call settles in the full model. -/
inductive FetchResultFull : Type where
  | success (r : ResponseFull)
  | failure (errName : String)

/-- `parseTorrentFromURL` over the full settlement model.  The result is
`.ok` a `Result` value on every returning path, and `.error` carrying the
rejection's error name on the paths where the source throws: the uncaught
body-text awaits of the non-2xx branch (line 85) and the RSS branch
(line 88).  A failing `arrayBuffer()` read — including a late timer abort
during it — lands in the `catch` of the decode `try` and returns
`INVALID_CONTENTS`, not `ABORTED`. -/
def parseTorrentFromURLFull {M : Type} (decode : List Nat → Option M) :
    FetchResultFull → Except String (Result M SnatchError)
  | .failure errName =>
      if errName == "AbortError" then .ok (resultOfErr SnatchError.ABORTED)
      else .ok (resultOfErr SnatchError.UNKNOWN_ERROR)
  | .success r =>
      if magnetRedirectFull r then .ok (resultOfErr SnatchError.MAGNET_LINK)
      else if r.status == 429 then .ok (resultOfErr SnatchError.RATE_LIMITED)
      else if !r.ok then
        match r.textResult with
        | .error e => .error e
        | .ok _ => .ok (resultOfErr SnatchError.UNKNOWN_ERROR)
      else if r.contentType == some "application/rss+xml" then
        match r.textResult with
        | .error e => .error e
        | .ok responseText =>
          if containsSub responseText "429" then .ok (resultOfErr SnatchError.RATE_LIMITED)
          else .ok (resultOfErr SnatchError.INVALID_CONTENTS)
      else
        match r.bytesResult with
        | .error _ => .ok (resultOfErr SnatchError.INVALID_CONTENTS)
        | .ok bytes =>
          match decode bytes with
          | some m => .ok (resultOf m)
          | none => .ok (resultOfErr SnatchError.INVALID_CONTENTS)

/-! ## Claim-level conditions and concrete test data -/

/-- The first classification case as the claim words it: a 3xx status whose
`Location` header begins with the magnet-URI scheme. -/
def MagnetCond (r : Response) : Prop :=
  (300 ≤ r.status ∧ r.status ≤ 399) ∧
    ∃ loc, r.location = some loc ∧ strStartsWith loc "magnet:" = true

/-- Modelled from the spec: a concrete `Patterns` instance faithful to the
`src/constants.js` regexes on the release names used in the witnesses and
counterexamples below.  The episode pattern finds the season+episode marker
`S01E02` when the name contains it; the group pattern finds the release-group
tag `GROUP`; the names in play contain no season-only marker and no
movie/title-year marker (none of them carries a four-digit year), so those
matchers return `none`. -/
def testPatterns : Patterns where
  epMatch := fun n => if containsSub n "S01E02" then some "S01E02" else none
  seasonMatch := fun _ => none
  movieMatch := fun _ => none
  groupMatch := fun n => if containsSub n "GROUP" then some "GROUP" else none

/-- A one-row Index Store used by the C7 counterexample. -/
def demoStore : List TorrentDbRow :=
  [⟨"aabbccddee", "Some.Movie.2020", "/torrents/a.torrent"⟩]

/-- A locator whose only populated field is `path`. -/
def demoPathLocator : TorrentLocator := { path := some "/missing/path.torrent" }

/-- A two-row Index Store used by the C7 witness. -/
def demoStore2 : List TorrentDbRow :=
  [⟨"aabbccddee", "Alpha.S01E01", "/torrents/a.torrent"⟩,
   ⟨"ffgghhiijj", "Beta.S02E02", "/torrents/b.torrent"⟩]

/-- A locator selecting the second row of `demoStore2` by name. -/
def demoNameLocator : TorrentLocator := { name := some "Beta.S02E02" }

/-- The single-record query result used by the C2 witness: the stored name
carries a `.mkv` extension. -/
def demoFuzzyRow : TorrentRecord :=
  ⟨"Show.Name.S01E02.GROUP.mkv", "/torrents/a.torrent"⟩

/-- A 302 redirect to a magnet link, for the C1 witness. -/
def magnetResponse : Response :=
  { status := 302, location := some "magnet:?xt=urn:btih:aabbcc" }

/-! ## Sanity checks of the embedding on concrete inputs -/

example : createComparableTorrent "Show Name - S01E02 - GROUP" = "groupnames01e02show" := by decide
example : createComparableTorrent "Show.Name.S01E02.GROUP.mkv" = "groupmkvnames01e02show" := by decide
example : createComparableTorrent "---" = "" := by decide
example : jsSplitChars ".a.".toList = [[], ['a'], []] := by decide
example : jsSplitChars "a..b".toList = [['a'], ['b']] := by decide
example : distance "kitten" "sitting" = 3 := by decide
example : distance "" "abc" = 3 := by decide
example : distance "abc" "abc" = 0 := by decide
example : computeSearchTerm testPatterns "Show Name - S01E02 - GROUP" = some "S01E02%GROUP" := by decide
example : computeSearchTerm testPatterns "Show.S01E02" = some "S01E02" := by decide
example : computeSearchTerm testPatterns "Nothing Matches Here" = none := by decide

/-! ## C10 — pattern-less names throw in search-term extraction -/

/-- C10: for every input name on which the episode, season, and movie
patterns all fail to match, `getTorrentByFuzzyName` throws (the code reads
`name.match(MOVIE_REGEX)[0]` off a `null` match) rather than returning
NoMatch; the extraction cascade has no fallback branch. -/
theorem getTorrentByFuzzyName_no_pattern_throws {M : Type} (P : Patterns)
    (exts : List String) (levenshtein : JsNum) (query : String → List TorrentRecord)
    (parseFile : String → M) (name : String)
    (hep : P.epMatch name = none) (hseason : P.seasonMatch name = none)
    (hmovie : P.movieMatch name = none) :
    getTorrentByFuzzyName P exts levenshtein query parseFile name = .error .typeError := by
  have hterm : computeSearchTerm P name = none := by
    unfold computeSearchTerm
    rw [hep, hseason, hmovie]
    cases hg : P.groupMatch name <;> simp [hg]
  unfold getTorrentByFuzzyName
  rw [hterm]

theorem getTorrentByFuzzyName_no_pattern_throws_witness :
    testPatterns.epMatch "Nothing Matches Here" = none ∧
    testPatterns.seasonMatch "Nothing Matches Here" = none ∧
    testPatterns.movieMatch "Nothing Matches Here" = none ∧
    getTorrentByFuzzyName testPatterns [] (jsnOfNat 2) (fun _ => [])
      (fun p : String => p) "Nothing Matches Here" = .error .typeError :=
  ⟨by decide, by decide, by decide,
   getTorrentByFuzzyName_no_pattern_throws testPatterns [] (jsnOfNat 2) (fun _ => [])
     (fun p : String => p) "Nothing Matches Here" (by decide) (by decide) (by decide)⟩

/-! ## C3 — empty candidate sets crash instead of returning NoMatch -/

/-- C3 (evaluation at the failing input): for the name `"Show.S01E02"`,
whose pattern query returns zero records, `getTorrentByFuzzyName` throws a
`TypeError` — `closest` of the empty key array is `undefined`, which the
following `distance(searchTarget, closestMatch)` dereferences — instead of
returning NoMatch (`null`) as the claim states. -/
theorem getTorrentByFuzzyName_emptyCandidates_throws :
    getTorrentByFuzzyName testPatterns [] (jsnOfNat 2) (fun _ => [])
      (fun p : String => p) "Show.S01E02" = .error .typeError := rfl

/-! ## C6 — names with an empty canonical key crash instead of returning NoMatch -/

/-- C6 (evaluation at the failing input): the name `"---"` canonicalizes to
the empty target key (`L = 0`), but `getTorrentByFuzzyName` does not return
NoMatch: no `L = 0` guard exists.  The name matches none of the extraction
patterns (markers contain non-separator characters), so the call throws in
search-term extraction even though the store holds a record.  (No
division-by-zero failure is involved on any path: the quotient feeds only
the advisory log, and JS division is total.) -/
theorem getTorrentByFuzzyName_emptyKey_crash :
    createComparableTorrent "---" = "" ∧
    getTorrentByFuzzyName testPatterns [] (jsnOfNat 2)
      (fun _ => [demoFuzzyRow]) (fun p : String => p) "---" = .error .typeError :=
  ⟨by decide, rfl⟩

/-! ## C4 — `removeExtensionsFromName` strips nothing -/

/-- C4 (the code bug, and its effect on candidate keys): for every extension
list and every name, `removeExtensionsFromName` returns the name unchanged —
the `return` inside the `forEach` callback only ends the callback and its
value is discarded, and `name` is never reassigned.  Consequently a stored
name ending in a known extension does *not* produce the same candidate key
as the same name without the extension, contradicting the claim. -/
theorem removeExtensionsFromName_never_strips :
    (∀ (exts : List String) (name : String), removeExtensionsFromName exts name = name) ∧
    removeExtensionsFromName [".mkv"] "Show.Name.S01E02.mkv" = "Show.Name.S01E02.mkv" ∧
    createComparableTorrent (removeExtensionsFromName [".mkv"] "Show.Name.S01E02.mkv") ≠
      createComparableTorrent "Show.Name.S01E02" :=
  ⟨fun _ _ => rfl, by decide, by decide⟩

/-! ## C9 — the cancellation timer is never disarmed -/

/-- C9 counterexample: a run with a configured timeout that settles on a
non-abort path (a transport failure) performs no `clearTimeout`: the timer
operation list contains no `clear`, so the claim that the timer is cancelled
once the request settles is false of the code. -/
theorem snatchTimer_never_cleared_counterexample :
    (parseTorrentFromURLRun (fun _ : List Nat => (none : Option Nat)) (some 30000)
        (.failure "FetchError")).1 ≠ resultOfErr SnatchError.ABORTED ∧
    TimerOp.clear ∉
      (parseTorrentFromURLRun (fun _ : List Nat => (none : Option Nat)) (some 30000)
        (.failure "FetchError")).2 := by decide

/-- C9 amended: when a timeout is configured, `parseTorrentFromURL` arms the
cancellation timer once and immediately `unref()`s it, but never cancels it:
no settlement path performs a `clearTimeout`, so the timer stays armed and
may fire a late `abort()` after the call returns (without effect on the
returned value; `unref()` only keeps it from holding the process open). -/
theorem snatchTimer_unref_no_clear {M : Type} (decode : List Nat → Option M)
    (snatchTimeout : Option Nat) (fr : FetchResult) :
    TimerOp.clear ∉ (parseTorrentFromURLRun decode snatchTimeout fr).2 ∧
    (∀ t, snatchTimeout = some t →
      (parseTorrentFromURLRun decode snatchTimeout fr).2 = [TimerOp.set true]) := by
  cases snatchTimeout <;> simp [parseTorrentFromURLRun, snatchTimerOps]

theorem snatchTimer_unref_no_clear_witness :
    (some 5000 : Option Nat) = some 5000 ∧
    (parseTorrentFromURLRun (fun _ : List Nat => (none : Option Nat)) (some 5000)
      (.success { status := 200 })).2 = [TimerOp.set true] :=
  ⟨rfl, (snatchTimer_unref_no_clear (fun _ : List Nat => (none : Option Nat)) (some 5000)
    (.success { status := 200 })).2 5000 rfl⟩


/-! ## C7 — the criteria locator ignores the `path` field -/

/-- Helper: `.first()` of a filtered query is the head of the filtered list. -/
theorem find?_eq_head?_filter {α : Type} (p : α → Bool) (l : List α) :
    l.find? p = (l.filter p).head? := by
  induction l with
  | nil => rfl
  | cons a l ih =>
    cases h : p a
    · rw [List.find?_cons_of_neg _ (by simp [h]), List.filter_cons_of_neg (by simp [h]), ih]
    · rw [List.find?_cons_of_pos _ h, List.filter_cons_of_pos h, List.head?_cons]

/-- C7 counterexample: with a locator whose only populated field is `path`,
zero store records satisfy the claim's predicate (the conjunction of *all*
populated `TorrentLocator` fields, `locatorWhereSpec`), yet
`getTorrentByCriteria` does not fail — it returns the first record's decoded
file, because the code's `where` clause consults only `infoHash` and `name`
and a locator with only `path` set produces the empty conjunction. -/
theorem getTorrentByCriteria_path_ignored_counterexample :
    (demoStore.all fun row => !(locatorWhereSpec demoPathLocator row)) = true ∧
    getTorrentByCriteria (fun p : String => p) demoStore demoPathLocator =
      .ok "/torrents/a.torrent" :=
  ⟨by decide, rfl⟩

/-- C7 amended: `getTorrentByCriteria` takes the conjunction of the truthy
(present and non-empty) `infoHash` and `name` fields — the `path` field does
not participate — fails exactly when zero Index Store records satisfy that
conjunction, and otherwise returns the decoded metafile of the store's first
matching record. -/
theorem getTorrentByCriteria_conjunction_first_match {M : Type} (parseFile : String → M)
    (store : List TorrentDbRow) (criteria : TorrentLocator) :
    (getTorrentByCriteria parseFile store criteria = .error .genericError ↔
      store.filter (locatorWhere criteria) = []) ∧
    (∀ row, (store.filter (locatorWhere criteria)).head? = some row →
      getTorrentByCriteria parseFile store criteria = .ok (parseFile row.file_path)) := by
  constructor
  · unfold getTorrentByCriteria
    rw [find?_eq_head?_filter]
    cases hfil : store.filter (locatorWhere criteria) <;> simp
  · intro row hrow
    unfold getTorrentByCriteria
    rw [find?_eq_head?_filter, hrow]

/-! ## C1 — classification order of settled responses -/

set_option maxRecDepth 20000 in
/-- Helper: over the HTTP status range, `status.toString().startsWith("3")`
holds exactly for the 3xx statuses. -/
theorem strStartsWith3_repr :
    ∀ s : Nat, s < 600 → 100 ≤ s →
      (strStartsWith (Nat.repr s) "3" = (decide (300 ≤ s) && decide (s ≤ 399))) := by decide

/-- Helper: the code's magnet-redirect guard coincides with the claim's
"3xx status whose `Location` begins with `magnet:`" on HTTP statuses. -/
theorem magnetRedirect_iff {r : Response} (hlo : 100 ≤ r.status) (hhi : r.status ≤ 599) :
    magnetRedirect r = true ↔ MagnetCond r := by
  unfold magnetRedirect MagnetCond
  rw [Bool.and_eq_true]
  have h3 := strStartsWith3_repr r.status (by omega) hlo
  constructor
  · rintro ⟨hs, hl⟩
    rw [h3, Bool.and_eq_true, decide_eq_true_eq, decide_eq_true_eq] at hs
    refine ⟨hs, ?_⟩
    cases hloc : r.location with
    | none => rw [hloc] at hl; exact absurd hl (by simp)
    | some loc => exact ⟨loc, rfl, by rw [hloc] at hl; exact hl⟩
  · rintro ⟨⟨hs1, hs2⟩, loc, hloc, hpre⟩
    constructor
    · rw [h3, Bool.and_eq_true, decide_eq_true_eq, decide_eq_true_eq]; exact ⟨hs1, hs2⟩
    · rw [hloc]; exact hpre

/-- C1: a settled response is classified in the source's fixed order, first
match winning: a 3xx status whose `Location` begins with `magnet:` yields
`MAGNET_LINK`; else status 429 yields `RATE_LIMITED`; else any non-2xx
status yields `UNKNOWN_ERROR`; else a response declaring the RSS/XML content
type yields `RATE_LIMITED` when its textual body contains the literal
`"429"` and `INVALID_CONTENTS` otherwise; else the body is decoded, decode
failure yielding `INVALID_CONTENTS` and success returning the `Metafile`. -/
theorem parseTorrentFromURL_classification_order {M : Type} (decode : List Nat → Option M)
    (r : Response) (hlo : 100 ≤ r.status) (hhi : r.status ≤ 599) :
    (MagnetCond r →
      parseTorrentFromURL decode (.success r) = resultOfErr SnatchError.MAGNET_LINK) ∧
    (¬ MagnetCond r → r.status = 429 →
      parseTorrentFromURL decode (.success r) = resultOfErr SnatchError.RATE_LIMITED) ∧
    (¬ MagnetCond r → r.status ≠ 429 → ¬ (200 ≤ r.status ∧ r.status ≤ 299) →
      parseTorrentFromURL decode (.success r) = resultOfErr SnatchError.UNKNOWN_ERROR) ∧
    (200 ≤ r.status ∧ r.status ≤ 299 → r.contentType = some "application/rss+xml" →
      (containsSub r.bodyText "429" = true →
        parseTorrentFromURL decode (.success r) = resultOfErr SnatchError.RATE_LIMITED) ∧
      (containsSub r.bodyText "429" = false →
        parseTorrentFromURL decode (.success r) = resultOfErr SnatchError.INVALID_CONTENTS)) ∧
    (200 ≤ r.status ∧ r.status ≤ 299 → r.contentType ≠ some "application/rss+xml" →
      (decode r.bodyBytes = none →
        parseTorrentFromURL decode (.success r) = resultOfErr SnatchError.INVALID_CONTENTS) ∧
      (∀ m, decode r.bodyBytes = some m →
        parseTorrentFromURL decode (.success r) = resultOf m)) := by
  have hrun : parseTorrentFromURL decode (.success r) = classifyResponse decode r := rfl
  rw [hrun]
  refine ⟨?_, ?_, ?_, ?_, ?_⟩
  · intro hM
    have hm : magnetRedirect r = true := (magnetRedirect_iff hlo hhi).mpr hM
    simp [classifyResponse, hm]
  · intro hnM h429
    have hm : magnetRedirect r = false :=
      Bool.eq_false_iff.mpr (fun h => hnM ((magnetRedirect_iff hlo hhi).mp h))
    simp [classifyResponse, hm, h429]
  · intro hnM h429 h2xx
    have hm : magnetRedirect r = false :=
      Bool.eq_false_iff.mpr (fun h => hnM ((magnetRedirect_iff hlo hhi).mp h))
    have hb : (r.status == 429) = false := beq_eq_false_iff_ne.mpr h429
    have hok : r.ok = false := by
      unfold Response.ok
      rw [Bool.and_eq_false_iff]
      rcases Nat.lt_or_ge r.status 200 with h | h
      · exact .inl (by simpa using h)
      · exact .inr (by simp only [decide_eq_false_iff_not]; omega)
    simp [classifyResponse, hm, hb, hok]
  · rintro ⟨h2lo, h2hi⟩ hct
    have hm : magnetRedirect r = false :=
      Bool.eq_false_iff.mpr (fun h => by
        have := ((magnetRedirect_iff hlo hhi).mp h).1.1
        omega)
    have hb : (r.status == 429) = false := beq_eq_false_iff_ne.mpr (by omega)
    have hok : r.ok = true := by
      unfold Response.ok
      rw [Bool.and_eq_true, decide_eq_true_eq, decide_eq_true_eq]
      exact ⟨h2lo, h2hi⟩
    constructor
    · intro hbody
      simp [classifyResponse, hm, hb, hok, hct, hbody]
    · intro hbody
      simp [classifyResponse, hm, hb, hok, hct, hbody]
  · rintro ⟨h2lo, h2hi⟩ hct
    have hm : magnetRedirect r = false :=
      Bool.eq_false_iff.mpr (fun h => by
        have := ((magnetRedirect_iff hlo hhi).mp h).1.1
        omega)
    have hb : (r.status == 429) = false := beq_eq_false_iff_ne.mpr (by omega)
    have hok : r.ok = true := by
      unfold Response.ok
      rw [Bool.and_eq_true, decide_eq_true_eq, decide_eq_true_eq]
      exact ⟨h2lo, h2hi⟩
    have hctb : (r.contentType == some "application/rss+xml") = false :=
      beq_eq_false_iff_ne.mpr hct
    constructor
    · intro hdec
      simp [classifyResponse, hm, hb, hok, hctb, hdec]
    · intro m hdec
      simp [classifyResponse, hm, hb, hok, hctb, hdec, resultOf]

theorem parseTorrentFromURL_classification_order_witness :
    (100 ≤ magnetResponse.status ∧ magnetResponse.status ≤ 599) ∧
    MagnetCond magnetResponse ∧
    parseTorrentFromURL (fun _ : List Nat => (none : Option Nat)) (.success magnetResponse) =
      resultOfErr SnatchError.MAGNET_LINK :=
  ⟨⟨by decide, by decide⟩,
   ⟨⟨by decide, by decide⟩, "magnet:?xt=urn:btih:aabbcc", rfl, by decide⟩,
   (parseTorrentFromURL_classification_order (fun _ : List Nat => (none : Option Nat))
       magnetResponse (by decide) (by decide)).1
     ⟨⟨by decide, by decide⟩, "magnet:?xt=urn:btih:aabbcc", rfl, by decide⟩⟩

/-! ## C8 — `parseTorrentFromURL` can in fact throw: the uncaught body reads -/

/-- C8 counterexample: the claim that every outcome is returned as a value
is false of the code.  A non-2xx response whose body-text read rejects
throws the rejection to the caller (`await response.text()` at line 85 is
outside both `try` blocks); so does an RSS response whose
`response.clone().text()` read rejects (line 88) — including when the
rejection is the still-armed timer's `AbortError`, which the claim says
yields `ABORTED`.  And a timer abort during `arrayBuffer()` is caught by the
decode `try` and returned as `INVALID_CONTENTS`, not `ABORTED`. -/
theorem parseTorrentFromURL_bodyRead_throws_counterexample :
    parseTorrentFromURLFull (fun _ : List Nat => (none : Option Nat))
      (.success { status := 500, textResult := .error "FetchError" }) = .error "FetchError" ∧
    parseTorrentFromURLFull (fun _ : List Nat => (none : Option Nat))
      (.success { status := 200, contentType := some "application/rss+xml",
                  textResult := .error "AbortError" }) = .error "AbortError" ∧
    parseTorrentFromURLFull (fun _ : List Nat => (none : Option Nat))
      (.success { status := 200, bytesResult := .error "AbortError" }) =
      .ok (resultOfErr SnatchError.INVALID_CONTENTS) :=
  ⟨rfl, rfl, rfl⟩

/-- C8 amended: the fetch-level `try/catch` does return transport failures
as values — an `AbortError` rejection yields `ABORTED`, any other rejection
`UNKNOWN_ERROR` — and every settled response whose textual body is readable
classifies to a returned `Result` value; but the two body-text awaits (the
non-2xx diagnostic branch at line 85 and the RSS branch at line 88) are
outside any `try`, so `parseTorrentFromURL` throws exactly when one of those
two branches is reached and the body-text read rejects, and a rejection
during `arrayBuffer()` — including a late timer abort — is caught and
yields `INVALID_CONTENTS`, not `ABORTED`. -/
theorem parseTorrentFromURL_outcomes_amended {M : Type} (decode : List Nat → Option M) :
    parseTorrentFromURLFull decode (.failure "AbortError") =
      .ok (resultOfErr SnatchError.ABORTED) ∧
    (∀ errName, errName ≠ "AbortError" →
      parseTorrentFromURLFull decode (.failure errName) =
        .ok (resultOfErr SnatchError.UNKNOWN_ERROR)) ∧
    (∀ r : ResponseFull, (∃ t, r.textResult = .ok t) →
      (∃ m, parseTorrentFromURLFull decode (.success r) = .ok (resultOf m)) ∨
      (∃ e, parseTorrentFromURLFull decode (.success r) = .ok (resultOfErr e))) ∧
    (∀ (r : ResponseFull) (e : String),
      parseTorrentFromURLFull decode (.success r) = .error e ↔
        (r.textResult = .error e ∧ magnetRedirectFull r = false ∧ r.status ≠ 429 ∧
          (r.ok = false ∨ r.contentType = some "application/rss+xml"))) ∧
    (∀ (r : ResponseFull) (n : String), r.ok = true →
      r.contentType ≠ some "application/rss+xml" → r.bytesResult = .error n →
      parseTorrentFromURLFull decode (.success r) =
        .ok (resultOfErr SnatchError.INVALID_CONTENTS)) := by
  refine ⟨rfl, ?_, ?_, ?_, ?_⟩
  · intro errName h
    simp only [parseTorrentFromURLFull]
    rw [if_neg (by simpa using h)]
  · rintro r ⟨t, ht⟩
    simp only [parseTorrentFromURLFull]
    by_cases hm : magnetRedirectFull r = true
    · rw [if_pos hm]; exact .inr ⟨_, rfl⟩
    · rw [if_neg hm]
      by_cases h429 : (r.status == 429) = true
      · rw [if_pos h429]; exact .inr ⟨_, rfl⟩
      · rw [if_neg h429]
        by_cases hok : r.ok = true
        · rw [if_neg (by simp [hok])]
          by_cases hct : (r.contentType == some "application/rss+xml") = true
          · rw [if_pos hct, ht]
            by_cases hc : containsSub t "429" = true
            · refine .inr ⟨SnatchError.RATE_LIMITED, ?_⟩
              simp [hc]
            · refine .inr ⟨SnatchError.INVALID_CONTENTS, ?_⟩
              simp [hc]
          · rw [if_neg hct]
            cases hb : r.bytesResult with
            | error e => exact .inr ⟨_, rfl⟩
            | ok bytes =>
              cases hd : decode bytes with
              | some m => exact .inl ⟨m, by simp [hd]⟩
              | none => exact .inr ⟨SnatchError.INVALID_CONTENTS, by simp [hd]⟩
        · have hokf : r.ok = false := Bool.eq_false_iff.mpr hok
          rw [if_pos (by simp [hokf]), ht]
          exact .inr ⟨_, rfl⟩
  · intro r e
    constructor
    · intro h
      by_cases hm : magnetRedirectFull r = true
      · simp [parseTorrentFromURLFull, hm] at h
      · have hmf : magnetRedirectFull r = false := Bool.eq_false_iff.mpr hm
        by_cases h429 : (r.status == 429) = true
        · simp [parseTorrentFromURLFull, hmf, h429] at h
        · have h429f : (r.status == 429) = false := Bool.eq_false_iff.mpr h429
          have hne : r.status ≠ 429 := fun hs => h429 (by simp [hs])
          by_cases hok : r.ok = true
          · by_cases hct : (r.contentType == some "application/rss+xml") = true
            · cases htx : r.textResult with
              | error e' =>
                simp [parseTorrentFromURLFull, hmf, h429f, hok, hct, htx] at h
                exact ⟨by rw [h], hmf, hne, .inr (beq_iff_eq.mp hct)⟩
              | ok t =>
                simp [parseTorrentFromURLFull, hmf, h429f, hok, hct, htx] at h
                split at h <;> simp at h
            · have hctf : (r.contentType == some "application/rss+xml") = false :=
                Bool.eq_false_iff.mpr hct
              cases hb : r.bytesResult with
              | error e' =>
                simp [parseTorrentFromURLFull, hmf, h429f, hok, hctf, hb] at h
              | ok bytes =>
                cases hd : decode bytes with
                | some m =>
                  simp [parseTorrentFromURLFull, hmf, h429f, hok, hctf, hb, hd] at h
                | none =>
                  simp [parseTorrentFromURLFull, hmf, h429f, hok, hctf, hb, hd] at h
          · have hokf : r.ok = false := Bool.eq_false_iff.mpr hok
            cases htx : r.textResult with
            | error e' =>
              simp [parseTorrentFromURLFull, hmf, h429f, hokf, htx] at h
              exact ⟨by rw [h], hmf, hne, .inl hokf⟩
            | ok t =>
              simp [parseTorrentFromURLFull, hmf, h429f, hokf, htx] at h
    · rintro ⟨htx, hmf, hne, hbr⟩
      have h429 : (r.status == 429) = false := beq_eq_false_iff_ne.mpr hne
      simp only [parseTorrentFromURLFull]
      rcases hbr with hokf | hct
      · rw [if_neg (by simp [hmf]), if_neg (by simp [h429]),
          if_pos (by simp [hokf]), htx]
      · by_cases hok : r.ok = true
        · rw [if_neg (by simp [hmf]), if_neg (by simp [h429]),
            if_neg (by simp [hok]), if_pos (by simp [hct]), htx]
        · have hokf : r.ok = false := Bool.eq_false_iff.mpr hok
          rw [if_neg (by simp [hmf]), if_neg (by simp [h429]),
            if_pos (by simp [hokf]), htx]
  · intro r n hok hct hb
    have hs : 200 ≤ r.status ∧ r.status ≤ 299 := by
      have h := hok
      unfold ResponseFull.ok at h
      rw [Bool.and_eq_true, decide_eq_true_eq, decide_eq_true_eq] at h
      exact h
    have hmf : magnetRedirectFull r = false := by
      unfold magnetRedirectFull
      rw [strStartsWith3_repr r.status (by omega) (by omega)]
      have h300 : decide (300 ≤ r.status) = false := decide_eq_false (by omega)
      rw [h300, Bool.false_and, Bool.false_and]
    have h429 : (r.status == 429) = false := beq_eq_false_iff_ne.mpr (by omega)
    have hctb : (r.contentType == some "application/rss+xml") = false :=
      beq_eq_false_iff_ne.mpr hct
    simp only [parseTorrentFromURLFull]
    rw [if_neg (by simp [hmf]), if_neg (by simp [h429]),
      if_neg (by simp [hok]), if_neg (by simp [hctb]), hb]

theorem parseTorrentFromURL_outcomes_amended_witness :
    (("ECONNREFUSED" : String) ≠ "AbortError" ∧
      ({ status := 200, bytesResult := .error "AbortError" : ResponseFull }.ok = true) ∧
      ({ status := 200, bytesResult := .error "AbortError" : ResponseFull }.contentType ≠
        some "application/rss+xml")) ∧
    parseTorrentFromURLFull (fun _ : List Nat => (none : Option Nat))
      (.failure "ECONNREFUSED") = .ok (resultOfErr SnatchError.UNKNOWN_ERROR) ∧
    parseTorrentFromURLFull (fun _ : List Nat => (none : Option Nat))
      (.success { status := 200, bytesResult := .error "AbortError" }) =
      .ok (resultOfErr SnatchError.INVALID_CONTENTS) :=
  ⟨⟨by decide, by decide, by decide⟩,
   (parseTorrentFromURL_outcomes_amended (fun _ : List Nat => (none : Option Nat))).2.1
     "ECONNREFUSED" (by decide),
   (parseTorrentFromURL_outcomes_amended
       (fun _ : List Nat => (none : Option Nat))).2.2.2.2
     { status := 200, bytesResult := .error "AbortError" } "AbortError"
     (by decide) (by decide) rfl⟩

theorem getTorrentByCriteria_conjunction_first_match_witness :
    (demoStore2.filter (locatorWhere demoNameLocator)).head? =
      some ⟨"ffgghhiijj", "Beta.S02E02", "/torrents/b.torrent"⟩ ∧
    getTorrentByCriteria (fun p : String => p) demoStore2 demoNameLocator =
      .ok "/torrents/b.torrent" :=
  ⟨by decide,
   (getTorrentByCriteria_conjunction_first_match (fun p : String => p) demoStore2
     demoNameLocator).2 ⟨"ffgghhiijj", "Beta.S02E02", "/torrents/b.torrent"⟩ (by decide)⟩

/-! ## C5 — canonicalization is idempotent and order-invariant

The proof needs three ingredients: characters of canonical keys are
separator-free and lower-case fixed points; splitting a separator-free
string returns the string whole; and sorting by the total order `strLeB`
sends permuted token lists to the same sorted list. -/

theorem toNat_ofNat_of_lt {n : Nat} (h : n < 55296) : (Char.ofNat n).toNat = n := by
  rw [Char.ofNat, dif_pos (Or.inl h)]
  simp [Char.ofNatAux, Char.toNat, UInt32.toNat, BitVec.toNat_ofNatLt]

theorem toLower_toLower (c : Char) : c.toLower.toLower = c.toLower := by
  simp only [Char.toLower]
  by_cases h : c.toNat ≥ 65 ∧ c.toNat ≤ 90
  · simp only [if_pos h]
    have hv : (Char.ofNat (c.toNat + 32)).toNat = c.toNat + 32 :=
      toNat_ofNat_of_lt (by omega)
    rw [if_neg (by rw [hv]; omega)]
  · simp only [if_neg h]

theorem isSep_eq_false_of_lower {d : Char} (hge : 97 ≤ d.toNat) (hle : d.toNat ≤ 122) :
    isSep d = false := by
  have hdot : (d == '.') = false := beq_eq_false_iff_ne.mpr (fun he => by
    have : d.toNat = 46 := by rw [he]; decide
    omega)
  have hsp : (d == ' ') = false := beq_eq_false_iff_ne.mpr (fun he => by
    have : d.toNat = 32 := by rw [he]; decide
    omega)
  have htab : (d == '\t') = false := beq_eq_false_iff_ne.mpr (fun he => by
    have : d.toNat = 9 := by rw [he]; decide
    omega)
  have hnl : (d == '\n') = false := beq_eq_false_iff_ne.mpr (fun he => by
    have : d.toNat = 10 := by rw [he]; decide
    omega)
  have hcr : (d == '\r') = false := beq_eq_false_iff_ne.mpr (fun he => by
    have : d.toNat = 13 := by rw [he]; decide
    omega)
  have hhy : (d == '-') = false := beq_eq_false_iff_ne.mpr (fun he => by
    have : d.toNat = 45 := by rw [he]; decide
    omega)
  simp [isSep, hdot, hsp, htab, hnl, hcr, hhy]

theorem isSep_toLower {c : Char} (h : isSep c = false) : isSep (Char.toLower c) = false := by
  simp only [Char.toLower]
  by_cases hc : c.toNat ≥ 65 ∧ c.toNat ≤ 90
  · simp only [if_pos hc]
    have hv : (Char.ofNat (c.toNat + 32)).toNat = c.toNat + 32 :=
      toNat_ofNat_of_lt (by omega)
    exact isSep_eq_false_of_lower (by omega) (by omega)
  · simp only [if_neg hc]
    exact h

theorem mem_splitAtSeps_not_sep (l : List Char) :
    ∀ t ∈ splitAtSeps l, ∀ c ∈ t, isSep c = false := by
  induction l with
  | nil =>
    intro t ht c hc
    simp [splitAtSeps] at ht
    subst ht
    simp at hc
  | cons a l ih =>
    intro t ht c hc
    by_cases ha : isSep a = true
    · cases hs : splitAtSeps l with
      | nil =>
        simp only [splitAtSeps, hs, if_pos ha] at ht
        simp only [List.mem_cons, List.mem_singleton, List.not_mem_nil, or_false] at ht
        rcases ht with rfl | rfl <;> simp at hc
      | cons t0 ts =>
        simp only [splitAtSeps, hs, if_pos ha] at ht
        rcases List.mem_cons.mp ht with rfl | hin
        · simp at hc
        · exact ih t (by rw [hs]; exact hin) c hc
    · have ha' : isSep a = false := by
        cases hb : isSep a
        · rfl
        · exact absurd hb ha
      cases hs : splitAtSeps l with
      | nil =>
        simp only [splitAtSeps, hs, if_neg ha] at ht
        rcases List.mem_cons.mp ht with rfl | hin
        · rcases List.mem_cons.mp hc with rfl | hca
          · exact ha'
          · simp at hca
        · simp at hin
      | cons t0 ts =>
        simp only [splitAtSeps, hs, if_neg ha] at ht
        rcases List.mem_cons.mp ht with rfl | hin
        · rcases List.mem_cons.mp hc with rfl | hca
          · exact ha'
          · exact ih t0 (by rw [hs]; exact List.mem_cons_self t0 ts) c hca
        · exact ih t (by rw [hs]; exact List.mem_cons_of_mem t0 hin) c hc

theorem mem_dropEmptiesKeepLast : ∀ (ts : List (List Char)) (t : List Char),
    t ∈ dropEmptiesKeepLast ts → t ∈ ts
  | [], t, ht => by simp [dropEmptiesKeepLast] at ht
  | [t0], t, ht => by
    simp only [dropEmptiesKeepLast] at ht
    exact ht
  | t0 :: t1 :: ts, t, ht => by
    simp only [dropEmptiesKeepLast] at ht
    by_cases h : t0.isEmpty
    · rw [if_pos h] at ht
      exact List.mem_cons_of_mem t0 (mem_dropEmptiesKeepLast (t1 :: ts) t ht)
    · rw [if_neg h] at ht
      rcases List.mem_cons.mp ht with ht | ht
      · subst ht; exact List.mem_cons_self _ _
      · exact List.mem_cons_of_mem t0 (mem_dropEmptiesKeepLast (t1 :: ts) t ht)

theorem mem_jsSplitChars_not_sep (l : List Char) :
    ∀ t ∈ jsSplitChars l, ∀ c ∈ t, isSep c = false := by
  intro t ht c hc
  have hmem : t ∈ splitAtSeps l := by
    unfold jsSplitChars at ht
    cases hs : splitAtSeps l with
    | nil => rw [hs] at ht; simp at ht
    | cons t0 ts =>
      rw [hs] at ht
      rcases List.mem_cons.mp ht with rfl | hin
      · exact List.mem_cons_self _ _
      · exact List.mem_cons_of_mem t0 (mem_dropEmptiesKeepLast ts t hin)
  exact mem_splitAtSeps_not_sep l t hmem c hc

theorem splitAtSeps_no_sep : ∀ l : List Char, (∀ c ∈ l, isSep c = false) →
    splitAtSeps l = [l]
  | [] => fun _ => rfl
  | a :: l => fun h => by
    have hl : splitAtSeps l = [l] :=
      splitAtSeps_no_sep l (fun c hc => h c (List.mem_cons_of_mem _ hc))
    have ha : ¬ isSep a = true := by
      rw [h a (List.mem_cons_self a l)]
      simp
    simp only [splitAtSeps, hl, if_neg ha]

theorem jsSplitChars_no_sep (l : List Char) (h : ∀ c ∈ l, isSep c = false) :
    jsSplitChars l = [l] := by
  unfold jsSplitChars
  rw [splitAtSeps_no_sep l h]
  rfl

/-! ### Total-order facts for the sort comparator -/

theorem lexLe_total : ∀ as bs : List Char, lexLe as bs = true ∨ lexLe bs as = true
  | [], bs => .inl rfl
  | _ :: _, [] => .inr rfl
  | a :: as, b :: bs => by
    rcases lt_trichotomy a b with h | h | h
    · exact .inl (by simp [lexLe, if_pos h])
    · subst h
      have hirr : ¬ a < a := lt_irrefl a
      rcases lexLe_total as bs with ih | ih
      · exact .inl (by simp [lexLe, if_neg hirr, ih])
      · exact .inr (by simp [lexLe, if_neg hirr, ih])
    · exact .inr (by simp [lexLe, if_pos h])

theorem lexLe_trans : ∀ as bs cs : List Char,
    lexLe as bs = true → lexLe bs cs = true → lexLe as cs = true
  | [], _, _, _, _ => rfl
  | _ :: _, [], _, h, _ => by simp [lexLe] at h
  | _ :: _, _ :: _, [], _, h => by simp [lexLe] at h
  | a :: as, b :: bs, c :: cs, h1, h2 => by
    simp only [lexLe] at h1 h2 ⊢
    rcases lt_trichotomy a b with hab | hab | hab
    · rcases lt_trichotomy b c with hbc | hbc | hbc
      · rw [if_pos (lt_trans hab hbc)]
      · subst hbc; rw [if_pos hab]
      · rw [if_neg (lt_asymm hbc), if_pos hbc] at h2
        exact absurd h2 (by simp)
    · subst hab
      rw [if_neg (lt_irrefl a), if_neg (lt_irrefl a)] at h1
      rcases lt_trichotomy a c with hac | hac | hac
      · rw [if_pos hac]
      · subst hac
        rw [if_neg (lt_irrefl a), if_neg (lt_irrefl a)] at h2 ⊢
        exact lexLe_trans as bs cs h1 h2
      · rw [if_neg (lt_asymm hac), if_pos hac] at h2
        exact absurd h2 (by simp)
    · rw [if_neg (lt_asymm hab), if_pos hab] at h1
      exact absurd h1 (by simp)

theorem lexLe_antisymm : ∀ as bs : List Char,
    lexLe as bs = true → lexLe bs as = true → as = bs
  | [], [], _, _ => rfl
  | [], _ :: _, _, h => by simp [lexLe] at h
  | _ :: _, [], h, _ => by simp [lexLe] at h
  | a :: as, b :: bs, h1, h2 => by
    simp only [lexLe] at h1 h2
    rcases lt_trichotomy a b with hab | hab | hab
    · rw [if_neg (lt_asymm hab), if_pos hab] at h2
      exact absurd h2 (by simp)
    · subst hab
      rw [if_neg (lt_irrefl a), if_neg (lt_irrefl a)] at h1 h2
      rw [lexLe_antisymm as bs h1 h2]
    · rw [if_neg (lt_asymm hab), if_pos hab] at h1
      exact absurd h1 (by simp)

instance strLeB_isTotal : IsTotal String (fun a b => strLeB a b = true) :=
  ⟨fun a b => lexLe_total a.toList b.toList⟩

instance strLeB_isTrans : IsTrans String (fun a b => strLeB a b = true) :=
  ⟨fun a b c => lexLe_trans a.toList b.toList c.toList⟩

instance strLeB_isAntisymm : IsAntisymm String (fun a b => strLeB a b = true) :=
  ⟨fun a b h1 h2 => String.toList_inj.mp (lexLe_antisymm a.toList b.toList h1 h2)⟩

theorem sortStrings_perm_congr {l₁ l₂ : List String} (h : l₁.Perm l₂) :
    sortStrings l₁ = sortStrings l₂ :=
  @List.eq_of_perm_of_sorted String (fun a b => strLeB a b = true) strLeB_isAntisymm _ _
    (((List.perm_insertionSort _ l₁).trans h).trans (List.perm_insertionSort _ l₂).symm)
    (List.sorted_insertionSort _ l₁) (List.sorted_insertionSort _ l₂)

/-! ### Characters of canonical keys -/

theorem toList_append (s t : String) : (s ++ t).toList = s.toList ++ t.toList :=
  String.data_append s t

theorem mem_concatAll : ∀ (ts : List String) (c : Char),
    c ∈ (concatAll ts).toList → ∃ s ∈ ts, c ∈ s.toList
  | [], c, hc => by simp [concatAll] at hc
  | s :: ss, c, hc => by
    rw [concatAll, toList_append] at hc
    rcases List.mem_append.mp hc with hc | hc
    · exact ⟨s, List.mem_cons_self s ss, hc⟩
    · obtain ⟨s', hs', hcs'⟩ := mem_concatAll ss c hc
      exact ⟨s', List.mem_cons_of_mem s hs', hcs'⟩

theorem key_chars (x : String) :
    ∀ c ∈ (createComparableTorrent x).toList, isSep c = false ∧ Char.toLower c = c := by
  intro c hc
  obtain ⟨s, hs, hcs⟩ := mem_concatAll _ c hc
  have hs' : s ∈ lowerSplit x := by
    have : s ∈ tokenizeName x := hs
    unfold tokenizeName sortStrings at this
    exact (List.mem_insertionSort _).mp this
  obtain ⟨t, ht, rfl⟩ := List.mem_map.mp hs'
  have hct : c ∈ t.map Char.toLower := hcs
  obtain ⟨c0, hc0, rfl⟩ := List.mem_map.mp hct
  have hc0sep : isSep c0 = false := mem_jsSplitChars_not_sep x.toList t ht c0 hc0
  exact ⟨isSep_toLower hc0sep, toLower_toLower c0⟩

/-- C5: canonicalization is idempotent — applying `createComparableTorrent`
to its own output returns the same key — and order-invariant: two names
whose token lists (as split by the tokenizer) are permutations of one
another canonicalize to the same key. -/
theorem createComparableTorrent_idempotent_order_invariant :
    (∀ x : String, createComparableTorrent (createComparableTorrent x) =
      createComparableTorrent x) ∧
    (∀ n₁ n₂ : String, (jsSplitChars n₁.toList).Perm (jsSplitChars n₂.toList) →
      createComparableTorrent n₁ = createComparableTorrent n₂) := by
  constructor
  · intro x
    have hchars := key_chars x
    have hfix : (createComparableTorrent x).toList.map Char.toLower =
        (createComparableTorrent x).toList := by
      rw [List.map_congr_left (fun c hc => (hchars c hc).2)]
      exact List.map_id _
    have hlower : lowerSplit (createComparableTorrent x) = [createComparableTorrent x] := by
      unfold lowerSplit
      rw [jsSplitChars_no_sep _ (fun c hc => (hchars c hc).1)]
      rw [List.map_cons, List.map_nil, hfix]
      rfl
    show concatAll (tokenizeName (createComparableTorrent x)) = createComparableTorrent x
    rw [tokenizeName, hlower]
    show concatAll (sortStrings [createComparableTorrent x]) = createComparableTorrent x
    rw [show sortStrings [createComparableTorrent x] = [createComparableTorrent x] from rfl]
    show createComparableTorrent x ++ "" = createComparableTorrent x
    exact String.append_empty _
  · intro n₁ n₂ h
    unfold createComparableTorrent tokenizeName lowerSplit
    exact congrArg concatAll (sortStrings_perm_congr (h.map _))

/-! ## C2 — the adaptive acceptance threshold

The numeric lemmas relate the kernel-computable `JsNum` arithmetic of the
embedding to its rational meaning; the structural lemmas show `closest`
returns a key of the map, so the `searchMap[closestMatch]` lookups succeed. -/

theorem jsnLe_iff {a b : JsNum} (ha : 0 < a.den) (hb : 0 < b.den) :
    jsnLe a b = true ↔ a.toRat ≤ b.toRat := by
  unfold jsnLe JsNum.toRat
  rw [div_le_div_iff₀ (by exact_mod_cast ha) (by exact_mod_cast hb), decide_eq_true_eq]
  constructor
  · intro h; exact_mod_cast h
  · intro h; exact_mod_cast h

theorem toRat_jsnOfNat (n : Nat) : (jsnOfNat n).toRat = (n : ℚ) := by
  unfold jsnOfNat JsNum.toRat
  simp

theorem den_jsnOfNat (n : Nat) : 0 < (jsnOfNat n).den := Nat.one_pos

theorem toRat_jsnMul (a b : JsNum) : (jsnMul a b).toRat = a.toRat * b.toRat := by
  unfold jsnMul JsNum.toRat
  push_cast
  rw [div_mul_div_comm]

theorem den_jsnMul {a b : JsNum} (ha : 0 < a.den) (hb : 0 < b.den) :
    0 < (jsnMul a b).den := Nat.mul_pos ha hb

theorem toRat_jsnSub {a b : JsNum} (ha : 0 < a.den) (hb : 0 < b.den) :
    (jsnSub a b).toRat = a.toRat - b.toRat := by
  unfold jsnSub JsNum.toRat
  rw [div_sub_div _ _ (by exact_mod_cast ha.ne') (by exact_mod_cast hb.ne')]
  push_cast
  ring_nf

theorem den_jsnSub {a b : JsNum} (ha : 0 < a.den) (hb : 0 < b.den) :
    0 < (jsnSub a b).den := Nat.mul_pos ha hb

theorem toRat_jsnMax {a b : JsNum} (ha : 0 < a.den) (hb : 0 < b.den) :
    (jsnMax a b).toRat = max a.toRat b.toRat := by
  unfold jsnMax
  by_cases h : jsnLe a b = true
  · rw [if_pos h, max_eq_right ((jsnLe_iff ha hb).mp h)]
  · rw [if_neg h, max_eq_left (le_of_not_le (fun hc => h ((jsnLe_iff ha hb).mpr hc)))]

theorem den_jsnMax {a b : JsNum} (ha : 0 < a.den) (hb : 0 < b.den) :
    0 < (jsnMax a b).den := by
  unfold jsnMax
  split <;> assumption

theorem toRat_jsnMin {a b : JsNum} (ha : 0 < a.den) (hb : 0 < b.den) :
    (jsnMin a b).toRat = min a.toRat b.toRat := by
  unfold jsnMin
  by_cases h : jsnLe a b = true
  · rw [if_pos h, min_eq_left ((jsnLe_iff ha hb).mp h)]
  · rw [if_neg h, min_eq_right (le_of_not_le (fun hc => h ((jsnLe_iff ha hb).mpr hc)))]

theorem den_jsnMin {a b : JsNum} (ha : 0 < a.den) (hb : 0 < b.den) :
    0 < (jsnMin a b).den := by
  unfold jsnMin
  split <;> assumption

theorem toRat_tenth : (JsNum.mk 1 10).toRat = (1 : ℚ)/10 := by
  unfold JsNum.toRat
  norm_num

theorem closestGo_mem (str : String) : ∀ (l : List String) (best : String),
    closestGo str best l = best ∨ closestGo str best l ∈ l
  | [], _ => .inl rfl
  | s :: ss, best => by
    rw [closestGo]
    rcases closestGo_mem str ss (if distance str s < distance str best then s else best)
      with h | h
    · rw [h]
      by_cases hc : distance str s < distance str best
      · rw [if_pos hc]; exact .inr (List.mem_cons_self s ss)
      · rw [if_neg hc]; exact .inl rfl
    · exact .inr (List.mem_cons_of_mem s h)

theorem closest_mem {str cm : String} {arr : List String}
    (h : closest str arr = some cm) : cm ∈ arr := by
  cases arr with
  | nil => simp [closest] at h
  | cons a rest =>
    rw [closest] at h
    injection h with h
    rcases closestGo_mem str rest a with hh | hh
    · rw [← h, hh]; exact List.mem_cons_self a rest
    · rw [← h]; exact List.mem_cons_of_mem a hh

theorem lookup_some_of_mem_keys : ∀ (m : List (String × TorrentRecord)) (k : String),
    k ∈ m.map Prod.fst → ∃ v, List.lookup k m = some v
  | [], k, h => by simp at h
  | (k', v') :: m, k, h => by
    cases he : (k == k') with
    | true => exact ⟨v', by simp [List.lookup, he]⟩
    | false =>
      have hk : k ∈ m.map Prod.fst := by
        rw [List.map_cons] at h
        rcases List.mem_cons.mp h with h0 | h0
        · exact absurd h0 (beq_eq_false_iff_ne.mp he)
        · exact h0
      obtain ⟨v, hv⟩ := lookup_some_of_mem_keys m k hk
      exact ⟨v, by simp [List.lookup, he, hv]⟩

/-- C2: for every target key of positive length `L`, every configured
threshold `T`, and the nearest-candidate distance `d` computed by the
resolver, the acceptance ceiling is `max(T, min(0.1*L, 8))` and the match
resolves exactly when `d ≤ ceiling`: distance at the ceiling is accepted,
any distance beyond it — in particular `ceiling + 1` — yields NoMatch, and
the `ceiling + 2` advisory logging window never affects acceptance. -/
theorem getTorrentByFuzzyName_acceptance_threshold {M : Type} (P : Patterns)
    (exts : List String) (T : JsNum) (hT : 0 < T.den)
    (query : String → List TorrentRecord) (parseFile : String → M) (name st cm : String)
    (hst : computeSearchTerm P name = some st)
    (hcm : closest (createComparableTorrent name)
      ((buildSearchMap exts (query st)).map Prod.fst) = some cm)
    (_hL : 0 < (createComparableTorrent name).length) :
    ∃ r0, List.lookup cm (buildSearchMap exts (query st)) = some r0 ∧
      ((getTorrentByFuzzyName P exts T query parseFile name =
          .ok (some (parseFile r0.file_path)) ↔
        (distance (createComparableTorrent name) cm : ℚ) ≤
          max T.toRat
            (min ((1 : ℚ)/10 * ((createComparableTorrent name).length : ℚ)) 8)) ∧
      (getTorrentByFuzzyName P exts T query parseFile name = .ok none ↔
        max T.toRat
            (min ((1 : ℚ)/10 * ((createComparableTorrent name).length : ℚ)) 8) <
          (distance (createComparableTorrent name) cm : ℚ)) ∧
      ((distance (createComparableTorrent name) cm : ℚ) =
          max T.toRat
            (min ((1 : ℚ)/10 * ((createComparableTorrent name).length : ℚ)) 8) + 1 →
        getTorrentByFuzzyName P exts T query parseFile name = .ok none)) := by
  obtain ⟨r0, hr0⟩ := lookup_some_of_mem_keys _ _ (closest_mem hcm)
  refine ⟨r0, hr0, ?_⟩
  have hdmaxden : 0 < (jsnMax T (jsnMin
      (jsnMul ⟨1, 10⟩ (jsnOfNat (createComparableTorrent name).length))
      (jsnOfNat 8))).den :=
    den_jsnMax hT (den_jsnMin (den_jsnMul (by decide) (den_jsnOfNat _)) (den_jsnOfNat 8))
  have hdmaxrat : (jsnMax T (jsnMin
      (jsnMul ⟨1, 10⟩ (jsnOfNat (createComparableTorrent name).length))
      (jsnOfNat 8))).toRat =
      max T.toRat (min ((1 : ℚ)/10 * ((createComparableTorrent name).length : ℚ)) 8) := by
    rw [toRat_jsnMax hT (den_jsnMin (den_jsnMul (by decide) (den_jsnOfNat _)) (den_jsnOfNat 8)),
      toRat_jsnMin (den_jsnMul (by decide) (den_jsnOfNat _)) (den_jsnOfNat 8),
      toRat_jsnMul, toRat_tenth, toRat_jsnOfNat, toRat_jsnOfNat]
    norm_num
  have hc2 : (jsnLe (jsnOfNat (distance (createComparableTorrent name) cm))
      (jsnMax T (jsnMin
        (jsnMul ⟨1, 10⟩ (jsnOfNat (createComparableTorrent name).length))
        (jsnOfNat 8))) = true) ↔
      ((distance (createComparableTorrent name) cm : ℚ) ≤
        max T.toRat (min ((1 : ℚ)/10 * ((createComparableTorrent name).length : ℚ)) 8)) := by
    rw [jsnLe_iff (den_jsnOfNat _) hdmaxden, toRat_jsnOfNat, hdmaxrat]
  have hc1 : (jsnLe (jsnSub (jsnOfNat (distance (createComparableTorrent name) cm))
      (jsnOfNat 2))
      (jsnMax T (jsnMin
        (jsnMul ⟨1, 10⟩ (jsnOfNat (createComparableTorrent name).length))
        (jsnOfNat 8))) = true) ↔
      ((distance (createComparableTorrent name) cm : ℚ) - 2 ≤
        max T.toRat (min ((1 : ℚ)/10 * ((createComparableTorrent name).length : ℚ)) 8)) := by
    rw [jsnLe_iff (den_jsnSub (den_jsnOfNat _) (den_jsnOfNat 2)) hdmaxden,
      toRat_jsnSub (den_jsnOfNat _) (den_jsnOfNat 2), toRat_jsnOfNat, toRat_jsnOfNat, hdmaxrat]
    norm_num
  have hnf : getTorrentByFuzzyName P exts T query parseFile name =
      if jsnLe (jsnSub (jsnOfNat (distance (createComparableTorrent name) cm)) (jsnOfNat 2))
          (jsnMax T (jsnMin
            (jsnMul ⟨1, 10⟩ (jsnOfNat (createComparableTorrent name).length))
            (jsnOfNat 8))) = true then
        (if jsnLe (jsnOfNat (distance (createComparableTorrent name) cm))
            (jsnMax T (jsnMin
              (jsnMul ⟨1, 10⟩ (jsnOfNat (createComparableTorrent name).length))
              (jsnOfNat 8))) = true then
          Except.ok (some (parseFile r0.file_path))
        else Except.ok none)
      else Except.ok none := by
    simp only [getTorrentByFuzzyName, hst, hcm, hr0]
  by_cases h2 : (distance (createComparableTorrent name) cm : ℚ) ≤
      max T.toRat (min ((1 : ℚ)/10 * ((createComparableTorrent name).length : ℚ)) 8)
  · have hb2 := hc2.mpr h2
    have hb1 := hc1.mpr (by linarith)
    rw [hnf, if_pos hb1, if_pos hb2]
    refine ⟨⟨fun _ => h2, fun _ => rfl⟩,
      ⟨fun he => by simp at he, fun hlt => absurd h2 (not_le.mpr hlt)⟩, fun heq => ?_⟩
    exfalso
    rw [heq] at h2
    linarith
  · have hb2 : ¬ jsnLe (jsnOfNat (distance (createComparableTorrent name) cm))
        (jsnMax T (jsnMin
          (jsnMul ⟨1, 10⟩ (jsnOfNat (createComparableTorrent name).length))
          (jsnOfNat 8))) = true := fun hb => h2 (hc2.mp hb)
    by_cases h1 : (distance (createComparableTorrent name) cm : ℚ) - 2 ≤
        max T.toRat (min ((1 : ℚ)/10 * ((createComparableTorrent name).length : ℚ)) 8)
    · rw [hnf, if_pos (hc1.mpr h1), if_neg hb2]
      exact ⟨⟨fun he => by simp at he, fun hle => absurd hle h2⟩,
        ⟨fun _ => not_le.mp h2, fun _ => rfl⟩, fun _ => rfl⟩
    · rw [hnf, if_neg (fun hb => h1 (hc1.mp hb))]
      exact ⟨⟨fun he => by simp at he, fun hle => absurd hle h2⟩,
        ⟨fun _ => not_le.mp h2, fun _ => rfl⟩, fun _ => rfl⟩

theorem getTorrentByFuzzyName_acceptance_threshold_witness :
    (0 < (jsnOfNat 3).den ∧
      computeSearchTerm testPatterns "Show Name - S01E02 - GROUP" = some "S01E02%GROUP" ∧
      closest (createComparableTorrent "Show Name - S01E02 - GROUP")
        ((buildSearchMap [".mkv"] [demoFuzzyRow]).map Prod.fst) =
        some "groupmkvnames01e02show" ∧
      0 < (createComparableTorrent "Show Name - S01E02 - GROUP").length) ∧
    (∃ r0, List.lookup "groupmkvnames01e02show" (buildSearchMap [".mkv"] [demoFuzzyRow]) =
        some r0 ∧
      ((getTorrentByFuzzyName testPatterns [".mkv"] (jsnOfNat 3) (fun _ => [demoFuzzyRow])
          (fun p : String => p) "Show Name - S01E02 - GROUP" = .ok (some r0.file_path) ↔
        (distance (createComparableTorrent "Show Name - S01E02 - GROUP")
            "groupmkvnames01e02show" : ℚ) ≤
          max (jsnOfNat 3).toRat
            (min ((1 : ℚ)/10 *
              ((createComparableTorrent "Show Name - S01E02 - GROUP").length : ℚ)) 8)) ∧
      (getTorrentByFuzzyName testPatterns [".mkv"] (jsnOfNat 3) (fun _ => [demoFuzzyRow])
          (fun p : String => p) "Show Name - S01E02 - GROUP" = .ok none ↔
        max (jsnOfNat 3).toRat
            (min ((1 : ℚ)/10 *
              ((createComparableTorrent "Show Name - S01E02 - GROUP").length : ℚ)) 8) <
          (distance (createComparableTorrent "Show Name - S01E02 - GROUP")
            "groupmkvnames01e02show" : ℚ)) ∧
      ((distance (createComparableTorrent "Show Name - S01E02 - GROUP")
            "groupmkvnames01e02show" : ℚ) =
          max (jsnOfNat 3).toRat
            (min ((1 : ℚ)/10 *
              ((createComparableTorrent "Show Name - S01E02 - GROUP").length : ℚ)) 8) + 1 →
        getTorrentByFuzzyName testPatterns [".mkv"] (jsnOfNat 3) (fun _ => [demoFuzzyRow])
          (fun p : String => p) "Show Name - S01E02 - GROUP" = .ok none))) :=
  ⟨⟨by decide, by decide, by decide, by decide⟩,
   getTorrentByFuzzyName_acceptance_threshold testPatterns [".mkv"] (jsnOfNat 3) (by decide)
     (fun _ => [demoFuzzyRow]) (fun p : String => p) "Show Name - S01E02 - GROUP"
     "S01E02%GROUP" "groupmkvnames01e02show" (by decide) (by decide) (by decide)⟩

theorem createComparableTorrent_idempotent_order_invariant_witness :
    (jsSplitChars "Show.Name".toList).Perm (jsSplitChars "Name Show".toList) ∧
    createComparableTorrent (createComparableTorrent "Show.Name") =
      createComparableTorrent "Show.Name" ∧
    createComparableTorrent "Show.Name" = createComparableTorrent "Name Show" :=
  ⟨by decide,
   createComparableTorrent_idempotent_order_invariant.1 "Show.Name",
   createComparableTorrent_idempotent_order_invariant.2 "Show.Name" "Name Show" (by decide)⟩

end CrossSeed
